import Mathlib

/-!
Shallow embedding of the incremental reconciliation and registration engine in
`src/lib/core/src/client/preview/loadCsf.ts`.

The engine diffs the previous export snapshot against the current export set by
object identity, unregisters removed kinds, and registers added kinds and their
stories against the catalog store.  Side effects on the collaborators
(`storyStore`, `clientApi`, `logger`, the `deprecate` wrappers) are modelled as
an explicit trace of events; object identity is modelled by a numeric `uid`
attached to each export object; JavaScript objects used as parameter bags are
modelled as association lists with first-key-wins lookup and spread-style
right-biased merge.  The external collaborators from `@storybook/csf`
(`isExportStory`, `storyNameFromExport`, `toId`) are parameters of the model.
-/

namespace LoadCsf

/-- A JavaScript value, as far as the engine inspects one: `undefined` models
`undefined` (and `null`), `str` a string, and `ref` an opaque object or
function reference identified by its numeric identity. -/
inductive JVal where
  | undefined : JVal
  | str : String → JVal
  | ref : Nat → JVal
deriving DecidableEq, Repr

/-- A JavaScript object used as a bag of keyed values (parameters, args,
argTypes).  A key may be bound to `JVal.undefined`, which models a property that is
present but set to `undefined` (such a property still participates in object
spread). -/
abbrev Bag := List (String × JVal)

/-- Property lookup on a bag: the first binding of the key, if any. -/
def objFind (o : Bag) (k : String) : Option JVal :=
  (o.find? (fun p => p.1 = k)).map (·.2)

/-- Whether the key is a property of the bag (JavaScript `k in o`). -/
def objHas (o : Bag) (k : String) : Bool :=
  (objFind o k).isSome

/-- JavaScript object spread `{...a, ...b}`: every key of `b` takes `b`'s
value, keys only in `a` keep `a`'s value. -/
def objSpread (a b : Bag) : Bag :=
  a.filter (fun p => !objHas b p.1) ++ b

/-- Truthiness of an optional string, as JavaScript sees `meta.title` and
similar fields: absent (`undefined`) and the empty string are falsy. -/
def jsTruthy : Option String → Bool
  | some s => s ≠ ""
  | none => false

/-- JavaScript `o || d` for an optional string `o`: the string itself when it
is present and truthy (non-empty), otherwise the fallback `d`. -/
def jsOrStr (o : Option String) (d : String) : String :=
  match o with
  | some s => if s = "" then d else s
  | none => d

/-- Injection of an optional string (for example the resolved file path) into
a bag value; `none` becomes `undefined`. -/
def joptStr : Option String → JVal
  | some s => .str s
  | none => .undefined

/-- The legacy nested `.story` annotation object of a story function
(deprecated CSF style): `StoryFn.story.{name, parameters, decorators, args,
argTypes}`. -/
structure LegacyStory where
  name : Option String
  parameters : Bag
  decorators : List Nat
  args : Bag
  argTypes : Bag
deriving DecidableEq, Repr

/-- A named export of a story file: the story function (identified by
`fnRef`), its current-style hoisted CSF fields, and the optional legacy
`.story` object. -/
structure StoryFn where
  fnRef : Nat
  storyName : Option String
  parameters : Bag
  decorators : List Nat
  args : Bag
  argTypes : Bag
  story : Option LegacyStory
deriving DecidableEq, Repr

/-- The `default` export of a story file (the kind-level metadata):
`{title, id, parameters, decorators, component, subcomponents, args,
argTypes}`.  `component`, `subcomponents`, `args` and `argTypes` only flow
into the kind parameter bag as whole values, so they are kept opaque. -/
structure Meta where
  title : Option String
  id : Option String
  parameters : Bag
  decorators : List Nat
  component : JVal
  subcomponents : JVal
  args : JVal
  argTypes : JVal
deriving DecidableEq, Repr

/-- One loaded module's export object, keyed by its object identity `uid`,
together with the source path recorded for it in the `currentExports` map
(`null` is modelled as `none`).  `namedExports` are the exports left after
destructuring away `default` and `__namedExportsOrder`. -/
structure ExportUnit where
  uid : Nat
  defaultExport : Option Meta
  namedExports : List (String × StoryFn)
  namedExportsOrder : Option (List String)
  path : Option String
deriving DecidableEq, Repr

/-- The parameter bag passed to `kind.add` for one story: the merged
parameters spread together with the fixed `__id`, `decorators`, `args` and
`argTypes` properties (lines 179–185 of loadCsf.ts). -/
structure StoryParams where
  parameters : Bag
  storyId : String
  decorators : List Nat
  args : Bag
  argTypes : Bag
deriving DecidableEq, Repr

/-- One observable call to a collaborator during a pass.  Calls caused by a
specific export unit carry that unit's `uid` as provenance; `addStory` also
carries the export key the story came from. -/
inductive Event where
  | removeStoryKind : Nat → Option String → Event
  | storiesOf : Nat → String → Event
  | addParameters : Nat → String → Bag → Event
  | addDecorator : Nat → String → Nat → Event
  | addStory : Nat → String → String → String → StoryFn → StoryParams → Event
  | warnDuplicateKind : String → Event
  | advisoryDuplicateKind : Event
  | warnNoStories : Nat → String → Event
  | advisoryLegacyStory : Event
  | warnRepeatedLoad : Event
  | advisoryConfigure : Event
deriving DecidableEq, Repr

/-- The external collaborators imported from `@storybook/csf`: the
entry-recognition predicate and the name/identifier derivations.  They are
not part of the code under verification, so the model is parameterized over
them. -/
structure Ext where
  isExportStory : String → Meta → Bool
  storyNameFromExport : String → String
  toId : String → String → String

/-- The per-pass constants: the framework tag handed to `loadStories` and the
external collaborators. -/
structure Ctx where
  framework : String
  ext : Ext

/-- The kind-level parameter bag built on lines 134–142 of loadCsf.ts:
`{framework, component, subcomponents, fileName, ...kindParameters,
args: kindArgs, argTypes: kindArgTypes}`. -/
def kindParamsObj (framework : String) (u : ExportUnit) (meta : Meta) : Bag :=
  objSpread
    (objSpread
      [("framework", .str framework), ("component", meta.component),
       ("subcomponents", meta.subcomponents), ("fileName", joptStr u.path)]
      meta.parameters)
    [("args", meta.args), ("argTypes", meta.argTypes)]

/-- A field of the legacy `.story` object, or its default when the story
function carries no legacy object (spreading `undefined` yields no keys). -/
def legacyBag (f : LegacyStory → Bag) (fn : StoryFn) : Bag :=
  match fn.story with
  | some s => f s
  | none => []

/-- The legacy decorator list, `story?.decorators || []`. -/
def legacyDecorators (fn : StoryFn) : List Nat :=
  match fn.story with
  | some s => s.decorators
  | none => []

/-- The resolved story name `const { storyName = story?.name } = storyFn`:
the hoisted `storyName` when the property is present, otherwise the legacy
`story.name`. -/
def resolvedStoryName (fn : StoryFn) : Option String :=
  fn.storyName.orElse (fun _ => fn.story.bind (fun s => s.name))

/-- The display name passed to `kind.add` (line 186):
`storyName || exportName` after the legacy-name default. -/
def displayNameOf (fn : StoryFn) (exportName : String) : String :=
  jsOrStr (resolvedStoryName fn) exportName

/-- The merged story parameter bag built on lines 168–185 of loadCsf.ts:
current-style fields spread over the legacy `.story` fields, the identifier
from `toId(componentId || kindName, exportName)`, and current decorators
followed by legacy decorators. -/
def mkStoryParams (ext : Ext) (meta : Meta) (kindName exportName : String)
    (fn : StoryFn) : StoryParams :=
  { parameters := objSpread (legacyBag LegacyStory.parameters fn) fn.parameters
    storyId := ext.toId (jsOrStr meta.id kindName) exportName
    decorators := fn.decorators ++ legacyDecorators fn
    args := objSpread (legacyBag LegacyStory.args fn) fn.args
    argTypes := objSpread (legacyBag LegacyStory.argTypes fn) fn.argTypes }

/-- Whether a key is bound in a (mutable-object) accumulator. -/
def keyIn (acc : List (String × StoryFn)) (k : String) : Bool :=
  acc.any (fun p => p.1 = k)

/-- JavaScript property assignment `acc[k] = v` on an object built up by
insertion: an existing binding is overwritten in place, a new key is appended
(insertion order is preserved, as `Object.keys` relies on). -/
def setKey (acc : List (String × StoryFn)) (k : String) (v : StoryFn) :
    List (String × StoryFn) :=
  if keyIn acc k then acc.map (fun p => if p.1 = k then (k, v) else p)
  else acc ++ [(k, v)]

/-- Lookup of a named export, `namedExports[name]`. -/
def lookupExport (named : List (String × StoryFn)) (k : String) :
    Option StoryFn :=
  (named.find? (fun p => p.1 = k)).map (·.2)

/-- The loop on lines 105–110 of loadCsf.ts: rebuild `exports` by walking
`__namedExportsOrder` and copying each listed name that is actually a named
export. -/
def buildOrdered (named : List (String × StoryFn)) :
    List String → List (String × StoryFn) → List (String × StoryFn)
  | [], acc => acc
  | n :: rest, acc =>
    match lookupExport named n with
    | some fn => buildOrdered named rest (setKey acc n fn)
    | none => buildOrdered named rest acc

/-- The `exports` object actually iterated for a unit: the named exports,
filtered and reordered by `__namedExportsOrder` when that is an array
(lines 99–111). -/
def selectExports (u : ExportUnit) : List (String × StoryFn) :=
  match u.namedExportsOrder with
  | some order => buildOrdered u.namedExports order []
  | none => u.namedExports

/-- `Object.keys(exports)` (line 149). -/
def storyExportKeys (u : ExportUnit) : List String :=
  (selectExports u).map (·.1)

/-- The story loop on lines 160–188: for each recognized export emit the
legacy-annotation advisory (first use only, process-wide) and the `kind.add`
call; the Boolean threads the advisory's fired flag. -/
def processStories (ext : Ext) (meta : Meta) (uid : Nat) (kindName : String) :
    Bool → List (String × StoryFn) → List Event × Bool
  | fired, [] => ([], fired)
  | fired, (key, fn) :: rest =>
    if ext.isExportStory key meta then
      let legacyEvents :=
        if fn.story.isSome && !fired then [Event.advisoryLegacyStory] else []
      let fired' := fired || fn.story.isSome
      let exportName := ext.storyNameFromExport key
      let params := mkStoryParams ext meta kindName exportName fn
      let name := displayNameOf fn exportName
      let (restEvents, fired'') := processStories ext meta uid kindName fired' rest
      (legacyEvents ++ Event.addStory uid kindName name key fn params :: restEvents,
       fired'')
    else
      processStories ext meta uid kindName fired rest

/-- Result of processing a single added export unit (lines 86–189): the
events it emits, the updated per-pass seen-title set, the updated
process-wide advisory flags, and the fatal missing-title error, if any. -/
structure UnitResult where
  events : List Event
  loadedKinds : List String
  dupAdvisoryFired : Bool
  legacyAdvisoryFired : Bool
  err : Option Meta
deriving Repr

/-- The duplicate-title check on lines 124–127: when the title was already
seen in this pass, the `deprecate` wrapper fires its advisory (first use in
the process only) and then `logger.warn`s the duplicate title. -/
def dupEventsOf (loadedKinds : List String) (dupFired : Bool)
    (kindName : String) : List Event :=
  if loadedKinds.contains kindName then
    (if dupFired then [] else [Event.advisoryDuplicateKind]) ++
      [Event.warnDuplicateKind kindName]
  else []

/-- The kind-level registration calls on lines 131–147: `storiesOf`,
`addParameters` with the kind parameter bag, and one `addDecorator` per
declared kind decorator, in declaration order. -/
def kindEventsOf (ctx : Ctx) (u : ExportUnit) (meta : Meta)
    (kindName : String) : List Event :=
  Event.storiesOf u.uid kindName ::
    Event.addParameters u.uid kindName (kindParamsObj ctx.framework u meta) ::
      meta.decorators.map (Event.addDecorator u.uid kindName)

/-- Lines 149–188: when `Object.keys(exports)` is empty, the empty-stories
warning fires and the unit is done; otherwise the story loop runs.  The
Boolean is the updated legacy-annotation advisory flag. -/
def tailEventsOf (ctx : Ctx) (u : ExportUnit) (meta : Meta)
    (kindName : String) (legacyFired : Bool) : List Event × Bool :=
  if (storyExportKeys u).isEmpty then
    ([Event.warnNoStories u.uid kindName], legacyFired)
  else
    processStories ctx.ext meta u.uid kindName legacyFired (selectExports u)

/-- Processing of one added unit.  Units with no `default` export are
skipped; a `default` with a falsy `title` throws (carrying the offending
meta) before any call is made for this unit; otherwise the duplicate-title
check, `storiesOf`, `addParameters`, the kind decorators, and either the
empty-stories warning or the story loop run in source order. -/
def processUnitCore (ctx : Ctx) (loadedKinds : List String)
    (dupFired legacyFired : Bool) (u : ExportUnit) : UnitResult :=
  match u.defaultExport with
  | none => ⟨[], loadedKinds, dupFired, legacyFired, none⟩
  | some meta =>
    if jsTruthy meta.title then
      let kindName := meta.title.getD ""
      ⟨dupEventsOf loadedKinds dupFired kindName ++
         kindEventsOf ctx u meta kindName ++
           (tailEventsOf ctx u meta kindName legacyFired).1,
       if loadedKinds.contains kindName then loadedKinds
       else loadedKinds ++ [kindName],
       dupFired || loadedKinds.contains kindName,
       (tailEventsOf ctx u meta kindName legacyFired).2,
       none⟩
    else
      ⟨[], loadedKinds, dupFired, legacyFired, some meta⟩

/-- The state threaded through one pass: the event trace so far, the per-pass
`loadedKinds` set, and the process-wide fired flags of the two `deprecate`
wrappers used inside the pass. -/
structure PassState where
  events : List Event
  loadedKinds : List String
  dupAdvisoryFired : Bool
  legacyAdvisoryFired : Bool
deriving Repr

/-- One step of the `added.forEach` loop: append the unit's events and update
the threaded state, propagating the fatal error. -/
def processUnit (ctx : Ctx) (st : PassState) (u : ExportUnit) :
    PassState × Option Meta :=
  let r := processUnitCore ctx st.loadedKinds st.dupAdvisoryFired st.legacyAdvisoryFired u
  (⟨st.events ++ r.events, r.loadedKinds, r.dupAdvisoryFired, r.legacyAdvisoryFired⟩,
   r.err)

/-- The `added.forEach` loop (lines 86–189): units are processed in order; a
thrown missing-title error aborts the remainder of the loop but the events
already emitted stand. -/
def runAdded (ctx : Ctx) : PassState → List ExportUnit → PassState × Option Meta
  | st, [] => (st, none)
  | st, u :: us =>
    let r := processUnit ctx st u
    match r.2 with
    | none => runAdded ctx r.1 us
    | some m => (r.1, some m)

/-- The process-wide mutable state of the module: the `previousExports`
snapshot, the `loaded` flag, and the fired flags of the three `deprecate`
wrappers. -/
structure GlobalState where
  previousExports : List ExportUnit
  loaded : Bool
  dupAdvisoryFired : Bool
  legacyAdvisoryFired : Bool
  configureAdvisoryFired : Bool
deriving Repr

/-- Identity membership of a unit in an export set (`map.has(exp)`). -/
def uidMem (l : List ExportUnit) (n : Nat) : Bool :=
  l.any (fun u => u.uid = n)

/-- Line 77: `removed = previousExports.keys filter (not in currentExports)`. -/
def removedUnits (prev curr : List ExportUnit) : List ExportUnit :=
  prev.filter (fun u => !uidMem curr u.uid)

/-- Line 84: `added = currentExports.keys filter (not in previousExports)`. -/
def addedUnits (prev curr : List ExportUnit) : List ExportUnit :=
  curr.filter (fun u => !uidMem prev u.uid)

/-- Lines 78–82: each removed unit with a `default` export gets one
`removeStoryKind(exp.default.title)` call; removed units without `default`
are skipped. -/
def removalEvents (prev curr : List ExportUnit) : List Event :=
  (removedUnits prev curr).filterMap (fun u =>
    u.defaultExport.map (fun m => Event.removeStoryKind u.uid m.title))

/-- One reconciliation pass, the body of `loadStories` from line 77 on, given
the already-normalized current export set: remove, add, and replace the
snapshot — the snapshot is replaced only when the pass completes without a
fatal error (the throw on line 93 skips line 190). -/
def runLoadStories (ctx : Ctx) (g : GlobalState) (curr : List ExportUnit) :
    List Event × GlobalState × Option Meta :=
  let remEvents := removalEvents g.previousExports curr
  let added := addedUnits g.previousExports curr
  let (st, err) :=
    runAdded ctx ⟨remEvents, [], g.dupAdvisoryFired, g.legacyAdvisoryFired⟩ added
  (st.events,
   { previousExports := if err.isNone then curr else g.previousExports
     loaded := g.loaded
     dupAdvisoryFired := st.dupAdvisoryFired
     legacyAdvisoryFired := st.legacyAdvisoryFired
     configureAdvisoryFired := g.configureAdvisoryFired },
   err)

/-- The `m` argument of the entrypoint: a string (invalid), or a module with
optional HMR support; when HMR is available, `m.hot.data.previousExports` may
hold a persisted snapshot from the previous cycle. -/
inductive ModuleArg where
  | strArg : String → ModuleArg
  | modArg : Option (Option (List ExportUnit)) → ModuleArg
deriving DecidableEq, Repr

/-- The two fatal errors the entrypoint can raise. -/
inductive LoadError where
  | invalidModule : String → LoadError
  | missingTitle : Meta → LoadError
deriving DecidableEq, Repr

/-- The entrypoint returned by `loadCsf` (lines 219–245): the configure
deprecation advisory, the invalid-module check, snapshot restoration from the
HMR data, the repeated-load guard on `loaded`, and the reconciliation pass
itself. -/
def loadCsf (ctx : Ctx) (g : GlobalState) (m : ModuleArg)
    (showDeprecationWarning : Bool) (curr : List ExportUnit) :
    List Event × GlobalState × Option LoadError :=
  let confEvents :=
    if showDeprecationWarning && !g.configureAdvisoryFired then
      [Event.advisoryConfigure]
    else []
  let g1 :=
    if showDeprecationWarning && !g.configureAdvisoryFired then
      { g with configureAdvisoryFired := true }
    else g
  match m with
  | .strArg s => (confEvents, g1, some (.invalidModule s))
  | .modArg hot =>
    let g2 :=
      match hot with
      | some data => { g1 with previousExports := data.getD [] }
      | none => g1
    let repEvents := if g2.loaded then [Event.warnRepeatedLoad] else []
    let g3 := { g2 with loaded := true }
    (confEvents ++ repEvents ++ (runLoadStories ctx g3 curr).1,
     (runLoadStories ctx g3 curr).2.1,
     (runLoadStories ctx g3 curr).2.2.map .missingTitle)

/-- The unit an event is caused by, when it has one. -/
def eventUnit : Event → Option Nat
  | .removeStoryKind n _ => some n
  | .storiesOf n _ => some n
  | .addParameters n _ _ => some n
  | .addDecorator n _ _ => some n
  | .addStory n _ _ _ _ _ => some n
  | .warnNoStories n _ => some n
  | _ => none

/-- Whether an event is a call to the catalog store or client api (as opposed
to a logger warning or a deprecation advisory). -/
def isStoreCall : Event → Bool
  | .removeStoryKind _ _ => true
  | .storiesOf _ _ => true
  | .addParameters _ _ _ => true
  | .addDecorator _ _ _ => true
  | .addStory _ _ _ _ _ _ => true
  | _ => false

/-- Whether an event is a `removeStoryKind` call. -/
def isRemoveEv : Event → Bool
  | .removeStoryKind _ _ => true
  | _ => false

/-- Whether an event is the `removeStoryKind` call of the unit `n`. -/
def isRemoveFor (n : Nat) : Event → Bool
  | .removeStoryKind m _ => m = n
  | _ => false

/-- Whether an event is the duplicate-title `logger.warn` for the title `t`. -/
def isDupWarnFor (t : String) : Event → Bool
  | .warnDuplicateKind s => s = t
  | _ => false

/-- Whether an event is a `kind.add` registration. -/
def isAddStoryEv : Event → Bool
  | .addStory _ _ _ _ _ _ => true
  | _ => false

/-- Whether an event is the empty-stories warning of the unit `n`. -/
def isNoStoriesWarnFor (n : Nat) : Event → Bool
  | .warnNoStories m _ => m = n
  | _ => false

/-- The export key an `addStory` event registered, when it is one. -/
def eventStoryKey : Event → Option String
  | .addStory _ _ _ k _ _ => some k
  | _ => none

/-- Whether an event can be emitted from inside the added-units loop (as
opposed to the removal loop or the entrypoint). -/
def isPassEvent : Event → Bool
  | .removeStoryKind _ _ => false
  | .warnRepeatedLoad => false
  | .advisoryConfigure => false
  | _ => true

/-- Number of events of the trace satisfying a predicate. -/
def countEv (p : Event → Bool) (evs : List Event) : Nat :=
  (evs.filter p).length

/-- A unit that does not make the added-units loop throw: either no `default`
export, or a `default` with a truthy `title`. -/
def unitOk (u : ExportUnit) : Bool :=
  match u.defaultExport with
  | none => true
  | some m => jsTruthy m.title

/-- The declared title of a unit's `default` export, if any. -/
def unitTitle (u : ExportUnit) : Option String :=
  match u.defaultExport with
  | some m => m.title
  | none => none

/-- Number of units of the list declaring the title `t`. -/
def countTitled (t : String) (l : List ExportUnit) : Nat :=
  (l.filter (fun u => unitTitle u = some t)).length

/-! ### Concrete fixtures used by the closed evaluations -/

/-- A concrete instantiation of the external collaborators: the recognition
predicate rejects the key `"excluded"`, name and identifier derivation are
simple string operations. -/
def ext0 : Ext :=
  { isExportStory := fun k _ => !(k = "excluded")
    storyNameFromExport := fun k => "slug:" ++ k
    toId := fun a b => a ++ "--" ++ b }

def ctx0 : Ctx := ⟨"react", ext0⟩

def gEmpty : GlobalState := ⟨[], false, false, false, false⟩

def fn0 : StoryFn := ⟨100, none, [], [], [], [], none⟩

def metaA : Meta := ⟨some "A", none, [], [], .undefined, .undefined, .undefined, .undefined⟩

def unitA : ExportUnit := ⟨0, some metaA, [("primary", fn0)], none, some "a.js"⟩

def unitOther : ExportUnit := ⟨1, some metaA, [], none, none⟩

def legC2 : LegacyStory :=
  ⟨none, [("foo", .ref 2), ("legacyOnly", .ref 9)], [7], [("a", .ref 3)], []⟩

def fnC2 : StoryFn :=
  ⟨101, none, [("foo", .ref 1)], [5], [], [], some legC2⟩

def fnC8 : StoryFn :=
  ⟨102, some "", [], [], [], [], some ⟨some "Legacy", [], [], [], []⟩⟩

def metaC10 : Meta :=
  ⟨some "K", none,
   [("framework", .str "vue"), ("args", .ref 40), ("extra", .ref 41)],
   [], .ref 50, .undefined, .ref 42, .ref 43⟩

def unitC10 : ExportUnit := ⟨6, some metaC10, [], none, some "k.js"⟩

def metaBad : Meta := ⟨none, none, [], [], .undefined, .undefined, .undefined, .undefined⟩

def unitBad : ExportUnit := ⟨9, some metaBad, [], none, none⟩

def unitC4 : ExportUnit :=
  ⟨4, some metaA, [("a", fn0), ("b", fn0), ("c", fn0)], some ["c", "a"], none⟩

def unitNoDef : ExportUnit := ⟨2, none, [("x", fn0)], none, none⟩

def metaButton : Meta :=
  ⟨some "Button", none, [], [], .undefined, .undefined, .undefined, .undefined⟩

def unitB1 : ExportUnit := ⟨10, some metaButton, [("primary", fn0)], none, none⟩

def unitB2 : ExportUnit :=
  ⟨11, some metaButton, [("secondary", fn0)], none, none⟩

def unitB3 : ExportUnit :=
  ⟨12, some metaButton, [("third", fn0)], none, none⟩

def unitC7 : ExportUnit := ⟨7, some metaA, [("excluded", fn0)], none, none⟩

def unitC7e : ExportUnit := ⟨8, some metaA, [], none, none⟩

/-! ### Basic lemmas about bags, counting, and the story loop -/

theorem objFind_nil (k : String) : objFind [] k = none := rfl

theorem objFind_cons (p : String × JVal) (o : Bag) (k : String) :
    objFind (p :: o) k = if p.1 = k then some p.2 else objFind o k := by
  by_cases h : p.1 = k
  · simp [objFind, List.find?_cons_of_pos, h]
  · simp [objFind, List.find?_cons_of_neg, h]

theorem objFind_eq_none_of_not_has {o : Bag} {k : String}
    (h : objHas o k = false) : objFind o k = none := by
  unfold objHas at h
  cases hf : objFind o k with
  | none => rfl
  | some v => rw [hf] at h; simp at h

/-- Lookup after spread: every key takes its value from the right operand
when bound there, otherwise from the left operand. -/
theorem objFind_spread (a b : Bag) (k : String) :
    objFind (objSpread a b) k = (objFind b k).or (objFind a k) := by
  induction a with
  | nil =>
      show objFind (List.filter _ [] ++ b) k = _
      rw [List.filter_nil, List.nil_append, objFind_nil, Option.or_none]
  | cons p rest ih =>
      by_cases hb : objHas b p.1
      · have hstep : objSpread (p :: rest) b = objSpread rest b := by
          unfold objSpread
          rw [List.filter_cons, hb]
          simp
        rw [hstep, ih, objFind_cons]
        by_cases hk : p.1 = k
        · subst hk
          obtain ⟨v, hv⟩ := Option.isSome_iff_exists.mp (by simpa [objHas] using hb)
          simp [hv]
        · rw [if_neg hk]
      · have hb' : objHas b p.1 = false := by simpa using hb
        have hstep : objSpread (p :: rest) b = p :: objSpread rest b := by
          unfold objSpread
          rw [List.filter_cons, hb']
          simp
        rw [hstep, objFind_cons, objFind_cons]
        by_cases hk : p.1 = k
        · subst hk
          rw [objFind_eq_none_of_not_has hb']
          simp
        · rw [if_neg hk, if_neg hk]
          exact ih

theorem countEv_nil (p : Event → Bool) : countEv p [] = 0 := rfl

theorem countEv_append (p : Event → Bool) (l1 l2 : List Event) :
    countEv p (l1 ++ l2) = countEv p l1 + countEv p l2 := by
  simp [countEv, List.filter_append]

theorem countEv_eq_zero {p : Event → Bool} {evs : List Event} :
    countEv p evs = 0 ↔ ∀ e ∈ evs, p e = false := by
  simp [countEv, List.length_eq_zero, List.filter_eq_nil_iff]

theorem countTitled_cons (t : String) (u : ExportUnit) (l : List ExportUnit) :
    countTitled t (u :: l) =
      (if unitTitle u = some t then 1 else 0) + countTitled t l := by
  by_cases h : unitTitle u = some t <;>
    simp [countTitled, List.filter_cons, h, Nat.add_comm]

/-- Every event of the story loop is either the legacy-annotation advisory or
a `kind.add` call for this unit and kind, registering one of the iterated
exports. -/
theorem processStories_events (ext : Ext) (meta : Meta) (uid : Nat)
    (kindName : String) (fired : Bool) (l : List (String × StoryFn)) :
    ∀ e ∈ (processStories ext meta uid kindName fired l).1,
      e = Event.advisoryLegacyStory ∨
        ∃ name key fn params,
          e = Event.addStory uid kindName name key fn params ∧ (key, fn) ∈ l := by
  induction l generalizing fired with
  | nil => simp [processStories]
  | cons hd tl ih =>
      obtain ⟨key, fn⟩ := hd
      intro e he
      simp only [processStories] at he
      by_cases hrec : ext.isExportStory key meta
      · rw [if_pos hrec] at he
        simp only [List.mem_append, List.mem_cons] at he
        rcases he with he | he | he
        · left
          by_cases hs : fn.story.isSome && !fired <;> simp [hs] at he; exact he
        · right
          exact ⟨_, key, fn, _, he, List.mem_cons_self _ _⟩
        · rcases ih _ e he with h | ⟨name, key', fn', params, rfl, hmem⟩
          · exact Or.inl h
          · exact Or.inr ⟨name, key', fn', params, rfl, List.mem_cons_of_mem _ hmem⟩
      · rw [if_neg hrec] at he
        rcases ih fired e he with h | ⟨name, key', fn', params, rfl, hmem⟩
        · exact Or.inl h
        · exact Or.inr ⟨name, key', fn', params, rfl, List.mem_cons_of_mem _ hmem⟩

/-! ### Lemmas about processing one added unit -/

theorem contains_iff_mem {l : List String} {a : String} :
    l.contains a = true ↔ a ∈ l :=
  List.elem_iff

theorem processUnitCore_skip (ctx : Ctx) (lk : List String) (df lf : Bool)
    {u : ExportUnit} (h : u.defaultExport = none) :
    processUnitCore ctx lk df lf u = ⟨[], lk, df, lf, none⟩ := by
  unfold processUnitCore
  rw [h]

theorem processUnitCore_throw (ctx : Ctx) (lk : List String) (df lf : Bool)
    {u : ExportUnit} {m : Meta} (h : u.defaultExport = some m)
    (ht : jsTruthy m.title = false) :
    processUnitCore ctx lk df lf u = ⟨[], lk, df, lf, some m⟩ := by
  unfold processUnitCore
  rw [h]
  simp [ht]

theorem processUnitCore_ok (ctx : Ctx) (lk : List String) (df lf : Bool)
    {u : ExportUnit} {m : Meta} (h : u.defaultExport = some m)
    (ht : jsTruthy m.title = true) :
    processUnitCore ctx lk df lf u =
      ⟨dupEventsOf lk df (m.title.getD "") ++
         kindEventsOf ctx u m (m.title.getD "") ++
           (tailEventsOf ctx u m (m.title.getD "") lf).1,
       if lk.contains (m.title.getD "") then lk else lk ++ [m.title.getD ""],
       df || lk.contains (m.title.getD ""),
       (tailEventsOf ctx u m (m.title.getD "") lf).2,
       none⟩ := by
  unfold processUnitCore
  rw [h]
  simp [ht]

theorem processUnitCore_ok_events (ctx : Ctx) (lk : List String) (df lf : Bool)
    {u : ExportUnit} {m : Meta} (h : u.defaultExport = some m)
    (ht : jsTruthy m.title = true) :
    (processUnitCore ctx lk df lf u).events =
      dupEventsOf lk df (m.title.getD "") ++
        kindEventsOf ctx u m (m.title.getD "") ++
          (tailEventsOf ctx u m (m.title.getD "") lf).1 := by
  rw [processUnitCore_ok ctx lk df lf h ht]

theorem processUnitCore_err_none (ctx : Ctx) (lk : List String) (df lf : Bool)
    {u : ExportUnit} (h : unitOk u = true) :
    (processUnitCore ctx lk df lf u).err = none := by
  cases hd : u.defaultExport with
  | none => rw [processUnitCore_skip ctx lk df lf hd]
  | some m =>
      have ht : jsTruthy m.title = true := by
        unfold unitOk at h
        rw [hd] at h
        exact h
      rw [processUnitCore_ok ctx lk df lf hd ht]

theorem dupEventsOf_mem (lk : List String) (df : Bool) (kindName : String) :
    ∀ e ∈ dupEventsOf lk df kindName,
      e = Event.advisoryDuplicateKind ∨ e = Event.warnDuplicateKind kindName := by
  unfold dupEventsOf
  split
  · split <;> simp
  · simp

theorem kindEventsOf_mem (ctx : Ctx) (u : ExportUnit) (meta : Meta)
    (kindName : String) :
    ∀ e ∈ kindEventsOf ctx u meta kindName,
      e = Event.storiesOf u.uid kindName ∨
        e = Event.addParameters u.uid kindName (kindParamsObj ctx.framework u meta) ∨
          ∃ d ∈ meta.decorators, e = Event.addDecorator u.uid kindName d := by
  unfold kindEventsOf
  intro e he
  simp only [List.mem_cons, List.mem_map] at he
  rcases he with rfl | rfl | ⟨d, hd, rfl⟩
  · exact Or.inl rfl
  · exact Or.inr (Or.inl rfl)
  · exact Or.inr (Or.inr ⟨d, hd, rfl⟩)

theorem tailEventsOf_mem (ctx : Ctx) (u : ExportUnit) (meta : Meta)
    (kindName : String) (lf : Bool) :
    ∀ e ∈ (tailEventsOf ctx u meta kindName lf).1,
      e = Event.warnNoStories u.uid kindName ∨ e = Event.advisoryLegacyStory ∨
        ∃ name key fn params,
          e = Event.addStory u.uid kindName name key fn params ∧
            (key, fn) ∈ selectExports u := by
  unfold tailEventsOf
  split
  · simp
  · intro e he
    rcases processStories_events _ _ _ _ _ _ e he with h | h
    · exact Or.inr (Or.inl h)
    · exact Or.inr (Or.inr h)

/-- Every event of one unit's processing is a non-remove, in-pass event
attributed to this unit or to no unit. -/
theorem processUnitCore_events (ctx : Ctx) (lk : List String) (df lf : Bool)
    (u : ExportUnit) :
    ∀ e ∈ (processUnitCore ctx lk df lf u).events,
      isRemoveEv e = false ∧ isPassEvent e = true ∧
        (eventUnit e = some u.uid ∨ eventUnit e = none) := by
  cases hd : u.defaultExport with
  | none => rw [processUnitCore_skip ctx lk df lf hd]; simp
  | some m =>
      cases ht : jsTruthy m.title with
      | false => rw [processUnitCore_throw ctx lk df lf hd ht]; simp
      | true =>
          rw [processUnitCore_ok_events ctx lk df lf hd ht]
          intro e he
          simp only [List.mem_append] at he
          rcases he with (he | he) | he
          · rcases dupEventsOf_mem _ _ _ e he with rfl | rfl <;>
              simp [isRemoveEv, isPassEvent, eventUnit]
          · rcases kindEventsOf_mem _ _ _ _ e he with rfl | rfl | ⟨d, _, rfl⟩ <;>
              simp [isRemoveEv, isPassEvent, eventUnit]
          · rcases tailEventsOf_mem _ _ _ _ _ e he with rfl | rfl | ⟨n, k, f, p, rfl, _⟩ <;>
              simp [isRemoveEv, isPassEvent, eventUnit]

theorem dupEventsOf_count (lk : List String) (df : Bool) (kindName T : String) :
    countEv (isDupWarnFor T) (dupEventsOf lk df kindName) =
      if kindName = T ∧ kindName ∈ lk then 1 else 0 := by
  unfold dupEventsOf
  by_cases hc : lk.contains kindName = true
  · have hmem := contains_iff_mem.mp hc
    rw [if_pos hc, countEv_append]
    have h1 : countEv (isDupWarnFor T)
        (if df then [] else [Event.advisoryDuplicateKind]) = 0 := by
      by_cases hdf : df = true <;> simp [hdf, countEv, isDupWarnFor]
    rw [h1, Nat.zero_add]
    by_cases hk : kindName = T
    · subst hk
      rw [if_pos ⟨rfl, hmem⟩]
      simp [countEv, isDupWarnFor]
    · rw [if_neg (fun hand => hk hand.1)]
      simp [countEv, isDupWarnFor, hk]
  · have hc' : lk.contains kindName = false := by simpa using hc
    have hmem : ¬ kindName ∈ lk := fun hm => by
      rw [contains_iff_mem.mpr hm] at hc'
      cases hc'
    simp [hc', countEv, hmem]

theorem kindEventsOf_dup_count (ctx : Ctx) (u : ExportUnit) (meta : Meta)
    (kindName T : String) :
    countEv (isDupWarnFor T) (kindEventsOf ctx u meta kindName) = 0 := by
  rw [countEv_eq_zero]
  intro e he
  rcases kindEventsOf_mem _ _ _ _ e he with rfl | rfl | ⟨d, _, rfl⟩ <;> rfl

theorem tailEventsOf_dup_count (ctx : Ctx) (u : ExportUnit) (meta : Meta)
    (kindName : String) (lf : Bool) (T : String) :
    countEv (isDupWarnFor T) (tailEventsOf ctx u meta kindName lf).1 = 0 := by
  rw [countEv_eq_zero]
  intro e he
  rcases tailEventsOf_mem _ _ _ _ _ e he with rfl | rfl | ⟨n, k, f, p, rfl, _⟩ <;> rfl

/-- A unit with a truthy title has exactly the title's string as its kind
name. -/
theorem title_of_ok {u : ExportUnit} {m : Meta} (hd : u.defaultExport = some m)
    (ht : jsTruthy m.title = true) :
    ∃ s, m.title = some s ∧ s ≠ "" ∧ m.title.getD "" = s ∧ unitTitle u = some s := by
  cases hs : m.title with
  | none => rw [hs] at ht; simp [jsTruthy] at ht
  | some s =>
      refine ⟨s, rfl, ?_, rfl, by simp [unitTitle, hd, hs]⟩
      rw [hs] at ht
      simpa [jsTruthy] using ht

/-- The duplicate-title warning count of one unit's processing: one exactly
when the unit declares a title already in the pass's seen set. -/
theorem processUnitCore_dup_count (ctx : Ctx) (lk : List String) (df lf : Bool)
    {u : ExportUnit} (h : unitOk u = true) (T : String) :
    countEv (isDupWarnFor T) (processUnitCore ctx lk df lf u).events =
      if unitTitle u = some T ∧ T ∈ lk then 1 else 0 := by
  cases hd : u.defaultExport with
  | none =>
      rw [processUnitCore_skip ctx lk df lf hd]
      simp [unitTitle, hd, countEv]
  | some m =>
      have ht : jsTruthy m.title = true := by
        unfold unitOk at h
        rw [hd] at h
        exact h
      obtain ⟨s, hs, hne, hgd, hut⟩ := title_of_ok hd ht
      rw [processUnitCore_ok_events ctx lk df lf hd ht, countEv_append,
        countEv_append, dupEventsOf_count, kindEventsOf_dup_count,
        tailEventsOf_dup_count, hgd, hut]
      simp only [Nat.add_zero]
      by_cases hk : s = T
      · subst hk
        by_cases hmem : s ∈ lk
        · rw [if_pos ⟨rfl, hmem⟩, if_pos ⟨rfl, hmem⟩]
        · rw [if_neg (fun hand => hmem hand.2), if_neg (fun hand => hmem hand.2)]
      · rw [if_neg (fun hand => hk hand.1),
          if_neg (fun hand => hk (by injection hand.1))]

/-- Membership in the seen-title set after one unit: the old set plus the
unit's title, when it has one. -/
theorem processUnitCore_kinds (ctx : Ctx) (lk : List String) (df lf : Bool)
    {u : ExportUnit} (h : unitOk u = true) (T : String) :
    T ∈ (processUnitCore ctx lk df lf u).loadedKinds ↔
      T ∈ lk ∨ unitTitle u = some T := by
  cases hd : u.defaultExport with
  | none =>
      rw [processUnitCore_skip ctx lk df lf hd]
      simp [unitTitle, hd]
  | some m =>
      have ht : jsTruthy m.title = true := by
        unfold unitOk at h
        rw [hd] at h
        exact h
      obtain ⟨s, hs, hne, hgd, hut⟩ := title_of_ok hd ht
      rw [processUnitCore_ok ctx lk df lf hd ht]
      show T ∈ (if lk.contains (m.title.getD "") then lk else lk ++ [m.title.getD ""]) ↔ _
      rw [hgd, hut]
      by_cases hmem : s ∈ lk
      · rw [if_pos (contains_iff_mem.mpr hmem)]
        constructor
        · exact Or.inl
        · rintro (h | h)
          · exact h
          · injection h with h
            exact h ▸ hmem
      · rw [if_neg (fun hc => hmem (contains_iff_mem.mp hc))]
        simp only [List.mem_append, List.mem_singleton]
        constructor
        · rintro (h | rfl)
          · exact Or.inl h
          · exact Or.inr rfl
        · rintro (h | h)
          · exact Or.inl h
          · injection h with h
            exact Or.inr h.symm

/-! ### Lemmas about the added-units loop -/

theorem processUnit_snd (ctx : Ctx) (st : PassState) (u : ExportUnit) :
    (processUnit ctx st u).2 =
      (processUnitCore ctx st.loadedKinds st.dupAdvisoryFired
        st.legacyAdvisoryFired u).err := rfl

theorem processUnit_fst_events (ctx : Ctx) (st : PassState) (u : ExportUnit) :
    (processUnit ctx st u).1.events =
      st.events ++ (processUnitCore ctx st.loadedKinds st.dupAdvisoryFired
        st.legacyAdvisoryFired u).events := rfl

theorem processUnit_fst_kinds (ctx : Ctx) (st : PassState) (u : ExportUnit) :
    (processUnit ctx st u).1.loadedKinds =
      (processUnitCore ctx st.loadedKinds st.dupAdvisoryFired
        st.legacyAdvisoryFired u).loadedKinds := rfl

theorem runAdded_nil (ctx : Ctx) (st : PassState) :
    runAdded ctx st [] = (st, none) := rfl

theorem runAdded_cons (ctx : Ctx) (st : PassState) (u : ExportUnit)
    (us : List ExportUnit) :
    runAdded ctx st (u :: us) =
      match (processUnit ctx st u).2 with
      | none => runAdded ctx (processUnit ctx st u).1 us
      | some m => ((processUnit ctx st u).1, some m) := rfl

theorem runAdded_cons_ok (ctx : Ctx) (st : PassState) {u : ExportUnit}
    (us : List ExportUnit) (h : (processUnit ctx st u).2 = none) :
    runAdded ctx st (u :: us) = runAdded ctx (processUnit ctx st u).1 us := by
  rw [runAdded_cons, h]

theorem runAdded_cons_err (ctx : Ctx) (st : PassState) {u : ExportUnit}
    {m : Meta} (us : List ExportUnit) (h : (processUnit ctx st u).2 = some m) :
    runAdded ctx st (u :: us) = ((processUnit ctx st u).1, some m) := by
  rw [runAdded_cons, h]

/-- A throwing unit at the head of the loop stops the loop, leaves the state
as it was, and reports the offending meta. -/
theorem runAdded_throw (ctx : Ctx) (st : PassState) {u : ExportUnit} {m : Meta}
    (hd : u.defaultExport = some m) (ht : jsTruthy m.title = false)
    (us : List ExportUnit) :
    runAdded ctx st (u :: us) = (st, some m) := by
  have hp : (processUnit ctx st u).2 = some m := by
    rw [processUnit_snd, processUnitCore_throw ctx _ _ _ hd ht]
  rw [runAdded_cons_err ctx st us hp]
  have : (processUnit ctx st u).1 = st := by
    show PassState.mk (st.events ++
        (processUnitCore ctx st.loadedKinds st.dupAdvisoryFired
          st.legacyAdvisoryFired u).events) _ _ _ = st
    rw [processUnitCore_throw ctx _ _ _ hd ht]
    simp
  rw [this]

theorem runAdded_no_err (ctx : Ctx) (us : List ExportUnit) :
    ∀ st, (∀ u ∈ us, unitOk u = true) → (runAdded ctx st us).2 = none := by
  induction us with
  | nil => intro st _; rfl
  | cons u us ih =>
      intro st h
      have hp : (processUnit ctx st u).2 = none := by
        rw [processUnit_snd]
        exact processUnitCore_err_none ctx _ _ _ (h u (List.mem_cons_self u us))
      rw [runAdded_cons_ok ctx st us hp]
      exact ih _ (fun v hv => h v (List.mem_cons_of_mem _ hv))

theorem runAdded_append_ok (ctx : Ctx) (l1 : List ExportUnit) :
    ∀ (st : PassState) (l2 : List ExportUnit),
      (runAdded ctx st l1).2 = none →
        runAdded ctx st (l1 ++ l2) = runAdded ctx (runAdded ctx st l1).1 l2 := by
  induction l1 with
  | nil => intro st l2 _; rfl
  | cons u us ih =>
      intro st l2 h
      cases hp : (processUnit ctx st u).2 with
      | none =>
          rw [runAdded_cons_ok ctx st us hp] at h
          rw [List.cons_append, runAdded_cons_ok ctx st (us ++ l2) hp,
            runAdded_cons_ok ctx st us hp]
          exact ih _ l2 h
      | some m =>
          rw [runAdded_cons_err ctx st us hp] at h
          exact Option.noConfusion h

/-- Every event appended by the added-units loop is a non-remove, in-pass
event attributed to one of the looped units or to no unit. -/
theorem runAdded_events (ctx : Ctx) (us : List ExportUnit) :
    ∀ st, ∃ l, (runAdded ctx st us).1.events = st.events ++ l ∧
      ∀ e ∈ l, isRemoveEv e = false ∧ isPassEvent e = true ∧
        (eventUnit e = none ∨ ∃ u ∈ us, eventUnit e = some u.uid) := by
  induction us with
  | nil => intro st; exact ⟨[], by simp [runAdded_nil], by simp⟩
  | cons u us ih =>
      intro st
      have hcore := processUnitCore_events ctx st.loadedKinds
        st.dupAdvisoryFired st.legacyAdvisoryFired u
      cases hp : (processUnit ctx st u).2 with
      | none =>
          obtain ⟨l, hl, hall⟩ := ih (processUnit ctx st u).1
          rw [runAdded_cons_ok ctx st us hp]
          refine ⟨(processUnitCore ctx st.loadedKinds st.dupAdvisoryFired
            st.legacyAdvisoryFired u).events ++ l, ?_, ?_⟩
          · rw [hl, processUnit_fst_events, List.append_assoc]
          · intro e he
            rcases List.mem_append.mp he with he | he
            · obtain ⟨h1, h2, h3⟩ := hcore e he
              refine ⟨h1, h2, ?_⟩
              rcases h3 with h3 | h3
              · exact Or.inr ⟨u, List.mem_cons_self u us, h3⟩
              · exact Or.inl h3
            · obtain ⟨h1, h2, h3⟩ := hall e he
              refine ⟨h1, h2, ?_⟩
              rcases h3 with h3 | ⟨v, hv, h3⟩
              · exact Or.inl h3
              · exact Or.inr ⟨v, List.mem_cons_of_mem _ hv, h3⟩
      | some m =>
          rw [runAdded_cons_err ctx st us hp]
          refine ⟨(processUnitCore ctx st.loadedKinds st.dupAdvisoryFired
            st.legacyAdvisoryFired u).events, processUnit_fst_events ctx st u, ?_⟩
          intro e he
          obtain ⟨h1, h2, h3⟩ := hcore e he
          refine ⟨h1, h2, ?_⟩
          rcases h3 with h3 | h3
          · exact Or.inr ⟨u, List.mem_cons_self u us, h3⟩
          · exact Or.inl h3

/-- The duplicate-title warning count of the loop: each unit whose title is
already in the seen set contributes one warning, so starting from a seen set
not containing `T` the count is one less than the number of `T`-titled
units. -/
theorem runAdded_dup_count (ctx : Ctx) (T : String) (us : List ExportUnit) :
    ∀ st, (∀ u ∈ us, unitOk u = true) →
      countEv (isDupWarnFor T) (runAdded ctx st us).1.events =
        countEv (isDupWarnFor T) st.events +
          (if T ∈ st.loadedKinds then countTitled T us
           else countTitled T us - 1) := by
  induction us with
  | nil =>
      intro st _
      simp [runAdded_nil, countTitled]
  | cons u us ih =>
      intro st h
      have hok : unitOk u = true := h u (List.mem_cons_self u us)
      have hrest : ∀ v ∈ us, unitOk v = true :=
        fun v hv => h v (List.mem_cons_of_mem _ hv)
      have hp : (processUnit ctx st u).2 = none := by
        rw [processUnit_snd]
        exact processUnitCore_err_none ctx _ _ _ hok
      rw [runAdded_cons_ok ctx st us hp, ih _ hrest]
      have hev : countEv (isDupWarnFor T) (processUnit ctx st u).1.events =
          countEv (isDupWarnFor T) st.events +
            (if unitTitle u = some T ∧ T ∈ st.loadedKinds then 1 else 0) := by
        rw [processUnit_fst_events, countEv_append,
          processUnitCore_dup_count ctx _ _ _ hok]
      have hkind : T ∈ (processUnit ctx st u).1.loadedKinds ↔
          T ∈ st.loadedKinds ∨ unitTitle u = some T := by
        rw [processUnit_fst_kinds]
        exact processUnitCore_kinds ctx _ _ _ hok T
      rw [hev, countTitled_cons]
      simp only [hkind]
      by_cases hmem : T ∈ st.loadedKinds
      · rw [if_pos hmem, if_pos (Or.inl hmem)]
        by_cases hti : unitTitle u = some T
        · rw [if_pos ⟨hti, hmem⟩, if_pos hti]
          omega
        · rw [if_neg (fun hand => hti hand.1), if_neg hti]
          omega
      · rw [if_neg hmem]
        by_cases hti : unitTitle u = some T
        · rw [if_pos (Or.inr hti), if_neg (fun hand => hmem hand.2), if_pos hti]
          have : countTitled T us + 1 - 1 = countTitled T us := by omega
          omega
        · rw [if_neg (fun hor : T ∈ st.loadedKinds ∨ unitTitle u = some T =>
              hor.elim hmem hti),
            if_neg (fun hand => hmem hand.2), if_neg hti]
          omega

/-! ### Lemmas about one reconciliation pass -/

theorem runLoadStories_events_eq (ctx : Ctx) (g : GlobalState)
    (curr : List ExportUnit) :
    (runLoadStories ctx g curr).1 =
      (runAdded ctx ⟨removalEvents g.previousExports curr, [],
        g.dupAdvisoryFired, g.legacyAdvisoryFired⟩
        (addedUnits g.previousExports curr)).1.events := rfl

theorem runLoadStories_err_eq (ctx : Ctx) (g : GlobalState)
    (curr : List ExportUnit) :
    (runLoadStories ctx g curr).2.2 =
      (runAdded ctx ⟨removalEvents g.previousExports curr, [],
        g.dupAdvisoryFired, g.legacyAdvisoryFired⟩
        (addedUnits g.previousExports curr)).2 := rfl

theorem runLoadStories_prev_eq (ctx : Ctx) (g : GlobalState)
    (curr : List ExportUnit) :
    (runLoadStories ctx g curr).2.1.previousExports =
      if (runLoadStories ctx g curr).2.2.isNone then curr
      else g.previousExports := rfl

theorem isRemoveFor_imp_isRemoveEv {n : Nat} {e : Event}
    (h : isRemoveFor n e = true) : isRemoveEv e = true := by
  cases e <;> first | rfl | exact absurd h (by simp [isRemoveFor])

theorem removalEvents_cons (v : ExportUnit) (vs curr : List ExportUnit) :
    removalEvents (v :: vs) curr =
      (if uidMem curr v.uid then []
       else (v.defaultExport.map
         (fun m => Event.removeStoryKind v.uid m.title)).toList) ++
        removalEvents vs curr := by
  unfold removalEvents removedUnits
  rw [List.filter_cons]
  by_cases hc : uidMem curr v.uid
  · simp [hc]
  · have hc' : uidMem curr v.uid = false := by simpa using hc
    rw [hc']
    cases hd : v.defaultExport <;> simp [hc', hd, List.filterMap_cons]

theorem removalEvents_no_uid (curr : List ExportUnit) (n : Nat)
    (prev : List ExportUnit) (hn : n ∉ prev.map ExportUnit.uid) :
    countEv (isRemoveFor n) (removalEvents prev curr) = 0 := by
  rw [countEv_eq_zero]
  intro e he
  obtain ⟨u, hu, hmap⟩ := List.mem_filterMap.mp he
  cases hd : u.defaultExport with
  | none => rw [hd] at hmap; exact Option.noConfusion hmap
  | some m =>
      rw [hd] at hmap
      simp only [Option.map_some'] at hmap
      injection hmap with hmap
      subst hmap
      have hmem : u ∈ prev := (List.mem_filter.mp hu).1
      have hne : u.uid ≠ n :=
        fun h => hn (h ▸ List.mem_map_of_mem ExportUnit.uid hmem)
      simp [isRemoveFor, hne]

/-- A removed unit with a `default` gets exactly one removal call, carrying
that default's title; a removed unit without `default` gets none. -/
theorem removalEvents_count (curr : List ExportUnit) {u : ExportUnit} :
    ∀ prev : List ExportUnit, (prev.map ExportUnit.uid).Nodup → u ∈ prev →
      uidMem curr u.uid = false →
      countEv (isRemoveFor u.uid) (removalEvents prev curr) =
        (if u.defaultExport.isSome then 1 else 0) ∧
      (∀ m, u.defaultExport = some m →
        Event.removeStoryKind u.uid m.title ∈ removalEvents prev curr) := by
  intro prev
  induction prev with
  | nil => intro _ hmem; cases hmem
  | cons v vs ih =>
      intro hnd hmem habs
      rw [List.map_cons, List.nodup_cons] at hnd
      obtain ⟨hnd1, hnd2⟩ := hnd
      rw [removalEvents_cons, countEv_append]
      rcases List.mem_cons.mp hmem with rfl | hmem'
      · rw [removalEvents_no_uid curr u.uid vs hnd1, Nat.add_zero, habs]
        constructor
        · cases hd : u.defaultExport with
          | none => simp [countEv]
          | some m => simp [countEv, isRemoveFor]
        · intro m hd
          rw [hd]
          simp
      · have hneq : v.uid ≠ u.uid := by
          intro h
          exact hnd1 (h ▸ List.mem_map_of_mem ExportUnit.uid hmem')
        have hhead : countEv (isRemoveFor u.uid)
            (if uidMem curr v.uid then []
             else (v.defaultExport.map
               (fun m => Event.removeStoryKind v.uid m.title)).toList) = 0 := by
          by_cases hc : uidMem curr v.uid
          · simp [hc, countEv]
          · have hc' : uidMem curr v.uid = false := by simpa using hc
            rw [hc']
            cases v.defaultExport <;> simp [countEv, isRemoveFor, hneq]
        obtain ⟨hcount, hmem2⟩ := ih hnd2 hmem' habs
        refine ⟨by rw [hhead, Nat.zero_add, hcount], ?_⟩
        intro m hd
        exact List.mem_append_right _ (hmem2 m hd)

/-! ### Lemmas about the ordering list -/

theorem keyIn_nil (x : String) : keyIn [] x = false := rfl

theorem keyIn_append_single (acc : List (String × StoryFn)) (n x : String)
    (fn : StoryFn) :
    keyIn (acc ++ [(n, fn)]) x = (keyIn acc x || decide (n = x)) := by
  simp [keyIn, List.any_append]

theorem setKey_not_in {acc : List (String × StoryFn)} {k : String}
    (v : StoryFn) (h : keyIn acc k = false) :
    setKey acc k v = acc ++ [(k, v)] := by
  simp [setKey, h]

theorem buildOrdered_cons (named : List (String × StoryFn)) (n : String)
    (rest : List String) (acc : List (String × StoryFn)) :
    buildOrdered named (n :: rest) acc =
      match lookupExport named n with
      | some fn => buildOrdered named rest (setKey acc n fn)
      | none => buildOrdered named rest acc := rfl

/-- The keys of the rebuilt `exports` object: when the ordering list has no
repeated names, they are the listed names that are actual named exports, in
list order. -/
theorem buildOrdered_keys (named : List (String × StoryFn)) :
    ∀ (order : List String) (acc : List (String × StoryFn)),
      order.Nodup → (∀ x ∈ order, keyIn acc x = false) →
      (buildOrdered named order acc).map Prod.fst =
        acc.map Prod.fst ++
          order.filter (fun n => (lookupExport named n).isSome) := by
  intro order
  induction order with
  | nil => intro acc _ _; simp [buildOrdered]
  | cons n rest ih =>
      intro acc hnd hacc
      have hn_rest : n ∉ rest := (List.nodup_cons.mp hnd).1
      have hnd' : rest.Nodup := (List.nodup_cons.mp hnd).2
      rw [buildOrdered_cons, List.filter_cons]
      cases hl : lookupExport named n with
      | none =>
          simp only [hl, Option.isSome_none, Bool.false_eq_true, if_false]
          exact ih acc hnd' (fun x hx => hacc x (List.mem_cons_of_mem _ hx))
      | some fn =>
          simp only [hl, Option.isSome_some, if_true]
          rw [setKey_not_in fn (hacc n (List.mem_cons_self n rest))]
          have hacc' : ∀ x ∈ rest, keyIn (acc ++ [(n, fn)]) x = false := by
            intro x hx
            rw [keyIn_append_single]
            have h1 : keyIn acc x = false := hacc x (List.mem_cons_of_mem _ hx)
            have h2 : n ≠ x := fun h => hn_rest (h ▸ hx)
            simp [h1, h2]
          rw [ih (acc ++ [(n, fn)]) hnd' hacc']
          simp

/-- With a duplicate-free explicit ordering list, the iterated export keys
are exactly the listed names that exist among the named exports, in list
order. -/
theorem storyExportKeys_order {u : ExportUnit} {order : List String}
    (ho : u.namedExportsOrder = some order) (hnd : order.Nodup) :
    storyExportKeys u =
      order.filter (fun n => (lookupExport u.namedExports n).isSome) := by
  unfold storyExportKeys selectExports
  rw [ho]
  have := buildOrdered_keys u.namedExports order [] hnd (fun x _ => rfl)
  simpa using this

/-! ### Lemmas about the entrypoint -/

theorem runLoadStories_keeps_loaded (ctx : Ctx) (g : GlobalState)
    (curr : List ExportUnit) :
    (runLoadStories ctx g curr).2.1.loaded = g.loaded := rfl

theorem runLoadStories_keeps_conf (ctx : Ctx) (g : GlobalState)
    (curr : List ExportUnit) :
    (runLoadStories ctx g curr).2.1.configureAdvisoryFired =
      g.configureAdvisoryFired := rfl

/-- A reconciliation pass never emits the repeated-load warning. -/
theorem runLoadStories_no_repeated (ctx : Ctx) (g : GlobalState)
    (curr : List ExportUnit) :
    countEv (fun e => e = Event.warnRepeatedLoad)
      (runLoadStories ctx g curr).1 = 0 := by
  rw [countEv_eq_zero]
  intro e he
  rw [runLoadStories_events_eq] at he
  obtain ⟨l, hl, hall⟩ := runAdded_events ctx (addedUnits g.previousExports curr)
    ⟨removalEvents g.previousExports curr, [],
      g.dupAdvisoryFired, g.legacyAdvisoryFired⟩
  rw [hl] at he
  rcases List.mem_append.mp he with he | he
  · obtain ⟨u, hu, hmap⟩ := List.mem_filterMap.mp he
    cases hd : u.defaultExport with
    | none => rw [hd] at hmap; exact Option.noConfusion hmap
    | some m =>
        rw [hd] at hmap
        simp only [Option.map_some'] at hmap
        injection hmap with hmap
        subst hmap
        simp
  · obtain ⟨_, h2, _⟩ := hall e he
    by_cases hE : e = Event.warnRepeatedLoad
    · subst hE
      exact Bool.noConfusion h2
    · simp [hE]

/-- The pass events of the entrypoint do not depend on the `loaded` and
configure-advisory flags. -/
theorem runLoadStories_events_flags (ctx : Ctx) (g : GlobalState) (b c : Bool)
    (curr : List ExportUnit) :
    (runLoadStories ctx
      { g with loaded := b, configureAdvisoryFired := c } curr).1 =
      (runLoadStories ctx g curr).1 := rfl

theorem loadCsf_modNone_events (ctx : Ctx) (g : GlobalState) (sw : Bool)
    (curr : List ExportUnit) :
    (loadCsf ctx g (ModuleArg.modArg none) sw curr).1 =
      (if sw && !g.configureAdvisoryFired then [Event.advisoryConfigure]
       else []) ++
        ((if g.loaded then [Event.warnRepeatedLoad] else []) ++
          (runLoadStories ctx g curr).1) := by
  by_cases hb : (sw && !g.configureAdvisoryFired) = true <;>
    by_cases hl : g.loaded = true <;>
      simp only [loadCsf, hb, hl, Bool.false_eq_true, if_true, if_false,
        Bool.not_true, Bool.not_false] <;>
    try rfl

theorem loadCsf_modNone_state (ctx : Ctx) (g : GlobalState) (sw : Bool)
    (curr : List ExportUnit) :
    (loadCsf ctx g (ModuleArg.modArg none) sw curr).2.1 =
      (runLoadStories ctx
        { (if sw && !g.configureAdvisoryFired then
            { g with configureAdvisoryFired := true } else g) with
          loaded := true } curr).2.1 := by
  by_cases hb : (sw && !g.configureAdvisoryFired) = true <;>
    simp only [loadCsf, hb, Bool.false_eq_true, if_true, if_false] <;>
    try rfl

/-! ### The claims -/

/-- C1: in every pass, the removed set is exactly the identity difference
previous minus current, the added set is exactly current minus previous, and
a unit present in both snapshots causes no call at all during the pass. -/
theorem C1_reconciliation_diff (ctx : Ctx) (g : GlobalState)
    (curr : List ExportUnit) :
    (∀ u, u ∈ removedUnits g.previousExports curr ↔
      (u ∈ g.previousExports ∧ uidMem curr u.uid = false)) ∧
    (∀ u, u ∈ addedUnits g.previousExports curr ↔
      (u ∈ curr ∧ uidMem g.previousExports u.uid = false)) ∧
    (∀ n, uidMem g.previousExports n = true → uidMem curr n = true →
      ∀ e ∈ (runLoadStories ctx g curr).1, eventUnit e ≠ some n) := by
  refine ⟨?_, ?_, ?_⟩
  · intro u
    unfold removedUnits
    rw [List.mem_filter]
    simp
  · intro u
    unfold addedUnits
    rw [List.mem_filter]
    simp
  · intro n hprev hcurr e he hn
    rw [runLoadStories_events_eq] at he
    obtain ⟨l, hl, hall⟩ := runAdded_events ctx (addedUnits g.previousExports curr)
      ⟨removalEvents g.previousExports curr, [],
        g.dupAdvisoryFired, g.legacyAdvisoryFired⟩
    rw [hl] at he
    rcases List.mem_append.mp he with he | he
    · obtain ⟨u, hu, hmap⟩ := List.mem_filterMap.mp he
      have humem := List.mem_filter.mp hu
      cases hd : u.defaultExport with
      | none => rw [hd] at hmap; exact Option.noConfusion hmap
      | some m =>
          rw [hd] at hmap
          simp only [Option.map_some'] at hmap
          injection hmap with hmap
          subst hmap
          have huid : u.uid = n := by
            simpa [eventUnit] using hn
          have : uidMem curr u.uid = false := by
            simpa using humem.2
          rw [huid] at this
          rw [this] at hcurr
          exact Bool.noConfusion hcurr
    · obtain ⟨_, _, h3⟩ := hall e he
      rcases h3 with h3 | ⟨v, hv, h3⟩
      · rw [h3] at hn
        exact Option.noConfusion hn
      · rw [h3] at hn
        injection hn with hn
        have hvmem := List.mem_filter.mp hv
        have : uidMem g.previousExports v.uid = false := by
          simpa using hvmem.2
        rw [hn] at this
        rw [this] at hprev
        exact Bool.noConfusion hprev

theorem C1_witness :
    eventUnit (Event.removeStoryKind 0 (some "A")) ≠ some 1 := by
  have h := (C1_reconciliation_diff ctx0
    ⟨[unitA, unitOther], false, false, false, false⟩ [unitOther]).2.2
  exact h 1 (by decide) (by decide) (Event.removeStoryKind 0 (some "A"))
    (by decide)

/-- C2: an export carrying both current-style annotations and a legacy
nested `story` object registers with parameters, args and argTypes each
being the legacy bag shallow-merged under the current bag (current keys win
every conflict), and with the current decorators followed by the legacy
decorators. -/
theorem C2_legacy_merge (ext : Ext) (meta : Meta) (kindName exportName : String)
    (fn : StoryFn) (leg : LegacyStory) (h : fn.story = some leg) :
    (∀ k, objFind (mkStoryParams ext meta kindName exportName fn).parameters k =
      (objFind fn.parameters k).or (objFind leg.parameters k)) ∧
    (mkStoryParams ext meta kindName exportName fn).decorators =
      fn.decorators ++ leg.decorators ∧
    (∀ k, objFind (mkStoryParams ext meta kindName exportName fn).args k =
      (objFind fn.args k).or (objFind leg.args k)) ∧
    (∀ k, objFind (mkStoryParams ext meta kindName exportName fn).argTypes k =
      (objFind fn.argTypes k).or (objFind leg.argTypes k)) := by
  unfold mkStoryParams legacyBag legacyDecorators
  rw [h]
  exact ⟨fun k => objFind_spread _ _ _, rfl,
    fun k => objFind_spread _ _ _, fun k => objFind_spread _ _ _⟩

theorem C2_witness :
    objFind (mkStoryParams ext0 metaA "A" "Primary" fnC2).parameters "foo" =
      some (.ref 1) ∧
    objFind (mkStoryParams ext0 metaA "A" "Primary" fnC2).parameters
      "legacyOnly" = some (.ref 9) ∧
    (mkStoryParams ext0 metaA "A" "Primary" fnC2).decorators = [5, 7] ∧
    objFind (mkStoryParams ext0 metaA "A" "Primary" fnC2).args "a" =
      some (.ref 3) := by
  have h := C2_legacy_merge ext0 metaA "A" "Primary" fnC2 legC2 rfl
  refine ⟨?_, ?_, ?_, ?_⟩
  · rw [h.1 "foo"]; rfl
  · rw [h.1 "legacyOnly"]; rfl
  · rw [h.2.1]; rfl
  · rw [h.2.2.1 "a"]; rfl

theorem resolved_some {fn : StoryFn} {s : String} (hs : fn.storyName = some s) :
    resolvedStoryName fn = some s := by
  unfold resolvedStoryName
  rw [hs]
  rfl

theorem resolved_none {fn : StoryFn} (hs : fn.storyName = none) :
    resolvedStoryName fn = fn.story.bind LegacyStory.name := by
  unfold resolvedStoryName
  rw [hs]
  rfl

/-- C8 (amended): the display name is the current-style name when it is
supplied, otherwise (only when no current-style name is present at all) the
legacy name; when the name so resolved is absent or the empty string, the
slug derived from the export key is used instead — in particular an
empty-string current-style name suppresses the legacy name and yields the
slug. -/
theorem C8_display_name (fn : StoryFn) (exportName : String) :
    (∀ s, fn.storyName = some s → s ≠ "" →
      displayNameOf fn exportName = s) ∧
    (∀ t, fn.storyName = none → fn.story.bind LegacyStory.name = some t →
      t ≠ "" → displayNameOf fn exportName = t) ∧
    ((resolvedStoryName fn = none ∨ resolvedStoryName fn = some "") →
      displayNameOf fn exportName = exportName) := by
  refine ⟨?_, ?_, ?_⟩
  · intro s hs hne
    unfold displayNameOf
    rw [resolved_some hs]
    unfold jsOrStr
    simp [hne]
  · intro t h1 h2 h3
    unfold displayNameOf
    rw [resolved_none h1, h2]
    unfold jsOrStr
    simp [h3]
  · intro h
    unfold displayNameOf
    rcases h with h | h <;> rw [h] <;> rfl

/-- The claim predicts that the entry of `fnC8` (current-style name supplied
as the empty string, legacy name `"Legacy"`) registers under the supplied
current-style name, or at least under the legacy name; the engine registers
it under the slug of the export key instead. -/
theorem C8_counterexample :
    fnC8.storyName = some "" ∧
    fnC8.story.bind LegacyStory.name = some "Legacy" ∧
    (processStories ext0 metaA 0 "A" false [("key", fnC8)]).1 =
      [Event.advisoryLegacyStory,
       Event.addStory 0 "A" "slug:key" "key" fnC8
         (mkStoryParams ext0 metaA "A" "slug:key" fnC8)] ∧
    ("slug:key" : String) ≠ "" ∧ ("slug:key" : String) ≠ "Legacy" := by
  refine ⟨rfl, rfl, rfl, by decide, by decide⟩

theorem C8_witness :
    displayNameOf fnC2 "slug:key" = "slug:key" ∧
    displayNameOf ⟨103, some "Named", [], [], [], [], none⟩ "slug:key" =
      "Named" := by
  constructor
  · exact (C8_display_name fnC2 "slug:key").2.2 (Or.inl rfl)
  · exact (C8_display_name ⟨103, some "Named", [], [], [], [], none⟩
      "slug:key").1 "Named" rfl (by decide)

/-- C10: inside the kind parameter bag, keys of the group's own parameters
override the fixed framework / component / subcomponents / fileName fields,
while the default export's top-level args and argTypes override any args /
argTypes keys supplied inside the group's parameters. -/
theorem C10_kind_params (framework : String) (u : ExportUnit) (meta : Meta) :
    (∀ k, (k = "framework" ∨ k = "component" ∨ k = "subcomponents" ∨
        k = "fileName") →
      objHas meta.parameters k = true →
      objFind (kindParamsObj framework u meta) k = objFind meta.parameters k) ∧
    objFind (kindParamsObj framework u meta) "args" = some meta.args ∧
    objFind (kindParamsObj framework u meta) "argTypes" = some meta.argTypes := by
  refine ⟨?_, ?_, ?_⟩
  · intro k hk hhas
    unfold kindParamsObj
    rw [objFind_spread, objFind_spread]
    have htail : objFind [("args", meta.args), ("argTypes", meta.argTypes)] k =
        none := by
      rcases hk with rfl | rfl | rfl | rfl <;> rfl
    rw [htail]
    obtain ⟨v, hv⟩ := Option.isSome_iff_exists.mp hhas
    rw [hv]
    rfl
  · unfold kindParamsObj
    rw [objFind_spread]
    have htail : objFind [("args", meta.args), ("argTypes", meta.argTypes)]
        "args" = some meta.args := rfl
    rw [htail, Option.or_some]
  · unfold kindParamsObj
    rw [objFind_spread]
    have htail : objFind [("args", meta.args), ("argTypes", meta.argTypes)]
        "argTypes" = some meta.argTypes := rfl
    rw [htail, Option.or_some]

theorem C10_witness :
    objFind (kindParamsObj "react" unitC10 metaC10) "framework" =
      some (.str "vue") ∧
    objFind (kindParamsObj "react" unitC10 metaC10) "args" = some (.ref 42) ∧
    objFind (kindParamsObj "react" unitC10 metaC10) "argTypes" =
      some (.ref 43) := by
  have h := C10_kind_params "react" unitC10 metaC10
  refine ⟨?_, h.2.1, h.2.2⟩
  rw [h.1 "framework" (Or.inl rfl) (by decide)]
  rfl

/-- C3: when the added units are some cleanly-processed units followed by a
unit whose default export lacks a truthy title, the pass raises the error
carrying that default export, the events of the earlier units all stand (no
rollback), and the previous-exports snapshot is left untouched. -/
theorem C3_fatal_no_rollback (ctx : Ctx) (g : GlobalState)
    (curr : List ExportUnit) (good rest : List ExportUnit) (bad : ExportUnit)
    (m : Meta)
    (hsplit : addedUnits g.previousExports curr = good ++ bad :: rest)
    (hgood : ∀ u ∈ good, unitOk u = true)
    (hbad : bad.defaultExport = some m) (hm : jsTruthy m.title = false) :
    (runLoadStories ctx g curr).2.2 = some m ∧
    (runLoadStories ctx g curr).2.1.previousExports = g.previousExports ∧
    (runLoadStories ctx g curr).1 =
      (runAdded ctx ⟨removalEvents g.previousExports curr, [],
        g.dupAdvisoryFired, g.legacyAdvisoryFired⟩ good).1.events := by
  have hok : (runAdded ctx ⟨removalEvents g.previousExports curr, [],
      g.dupAdvisoryFired, g.legacyAdvisoryFired⟩ good).2 = none :=
    runAdded_no_err ctx good _ hgood
  have hfull : runAdded ctx ⟨removalEvents g.previousExports curr, [],
      g.dupAdvisoryFired, g.legacyAdvisoryFired⟩
      (addedUnits g.previousExports curr) =
      ((runAdded ctx ⟨removalEvents g.previousExports curr, [],
        g.dupAdvisoryFired, g.legacyAdvisoryFired⟩ good).1, some m) := by
    rw [hsplit, runAdded_append_ok ctx good _ (bad :: rest) hok,
      runAdded_throw ctx _ hbad hm rest]
  have herr : (runLoadStories ctx g curr).2.2 = some m := by
    rw [runLoadStories_err_eq, hfull]
  refine ⟨herr, ?_, ?_⟩
  · rw [runLoadStories_prev_eq, herr]
    rfl
  · rw [runLoadStories_events_eq, hfull]

theorem C3_witness :
    (runLoadStories ctx0 gEmpty [unitA, unitBad]).2.2 = some metaBad ∧
    (runLoadStories ctx0 gEmpty [unitA, unitBad]).2.1.previousExports = [] ∧
    (runLoadStories ctx0 gEmpty [unitA, unitBad]).1 =
      (runAdded ctx0 ⟨removalEvents gEmpty.previousExports [unitA, unitBad],
        [], gEmpty.dupAdvisoryFired, gEmpty.legacyAdvisoryFired⟩
        [unitA]).1.events := by
  have h := C3_fatal_no_rollback ctx0 gEmpty [unitA, unitBad] [unitA] []
    unitBad metaBad (by decide) (by decide) rfl rfl
  exact ⟨h.1, h.2.1, h.2.2⟩

/-- C4: with a duplicate-free explicit ordering list, exactly the listed
names that are actual named exports are iterated, in list order, and every
registered story's export key appears in the list. -/
theorem C4_export_order (ctx : Ctx) (lk : List String) (df lf : Bool)
    (u : ExportUnit) (order : List String)
    (ho : u.namedExportsOrder = some order) (hnd : order.Nodup) :
    storyExportKeys u =
      order.filter (fun n => (lookupExport u.namedExports n).isSome) ∧
    (∀ e ∈ (processUnitCore ctx lk df lf u).events, ∀ k,
      eventStoryKey e = some k → k ∈ order) := by
  refine ⟨storyExportKeys_order ho hnd, ?_⟩
  intro e he k hk
  cases hd : u.defaultExport with
  | none =>
      rw [processUnitCore_skip ctx lk df lf hd] at he
      cases he
  | some m =>
      cases ht : jsTruthy m.title with
      | false =>
          rw [processUnitCore_throw ctx lk df lf hd ht] at he
          cases he
      | true =>
          rw [processUnitCore_ok_events ctx lk df lf hd ht] at he
          rcases List.mem_append.mp he with he | he
          · rcases List.mem_append.mp he with he | he
            · rcases dupEventsOf_mem _ _ _ e he with rfl | rfl <;> cases hk
            · rcases kindEventsOf_mem _ _ _ _ e he with rfl | rfl | ⟨d, _, rfl⟩ <;>
                cases hk
          · rcases tailEventsOf_mem _ _ _ _ _ e he with rfl | rfl |
              ⟨n2, k2, f2, p2, rfl, hmem⟩
            · cases hk
            · cases hk
            · injection hk with hk
              subst hk
              have hkeys : k2 ∈ storyExportKeys u :=
                List.mem_map_of_mem Prod.fst hmem
              rw [storyExportKeys_order ho hnd] at hkeys
              exact (List.mem_filter.mp hkeys).1

theorem C4_witness :
    storyExportKeys unitC4 = ["c", "a"] := by
  have h := (C4_export_order ctx0 [] false false unitC4 ["c", "a"] rfl
    (by decide)).1
  rw [h]
  rfl

/-- C5: each unit present in the previous snapshot and absent from the
current set triggers exactly one removeStoryKind call with its default's
title when it has a default export, and no removeStoryKind call when it does
not. -/
theorem C5_removed_unit (ctx : Ctx) (g : GlobalState) (curr : List ExportUnit)
    (u : ExportUnit) (hnd : (g.previousExports.map ExportUnit.uid).Nodup)
    (hmem : u ∈ g.previousExports) (habs : uidMem curr u.uid = false) :
    (∀ m, u.defaultExport = some m →
      countEv (isRemoveFor u.uid) (runLoadStories ctx g curr).1 = 1 ∧
      Event.removeStoryKind u.uid m.title ∈ (runLoadStories ctx g curr).1) ∧
    (u.defaultExport = none →
      countEv (isRemoveFor u.uid) (runLoadStories ctx g curr).1 = 0) := by
  obtain ⟨hcount, hmemrem⟩ :=
    removalEvents_count curr g.previousExports hnd hmem habs
  obtain ⟨l, hl, hall⟩ := runAdded_events ctx (addedUnits g.previousExports curr)
    ⟨removalEvents g.previousExports curr, [],
      g.dupAdvisoryFired, g.legacyAdvisoryFired⟩
  have hevs : (runLoadStories ctx g curr).1 =
      removalEvents g.previousExports curr ++ l := by
    rw [runLoadStories_events_eq, hl]
  have hl0 : countEv (isRemoveFor u.uid) l = 0 := by
    rw [countEv_eq_zero]
    intro e he
    obtain ⟨h1, _, _⟩ := hall e he
    cases hb : isRemoveFor u.uid e with
    | false => rfl
    | true =>
        have h2 := isRemoveFor_imp_isRemoveEv hb
        rw [h1] at h2
        exact Bool.noConfusion h2
  refine ⟨?_, ?_⟩
  · intro m hd
    constructor
    · rw [hevs, countEv_append, hl0, Nat.add_zero, hcount, hd]
      rfl
    · rw [hevs]
      exact List.mem_append_left _ (hmemrem m hd)
  · intro hd
    rw [hevs, countEv_append, hl0, Nat.add_zero, hcount, hd]
    rfl

theorem C5_witness :
    countEv (isRemoveFor 0)
      (runLoadStories ctx0 ⟨[unitA, unitNoDef], false, false, false, false⟩
        []).1 = 1 ∧
    Event.removeStoryKind 0 (some "A") ∈
      (runLoadStories ctx0 ⟨[unitA, unitNoDef], false, false, false, false⟩
        []).1 ∧
    countEv (isRemoveFor 2)
      (runLoadStories ctx0 ⟨[unitA, unitNoDef], false, false, false, false⟩
        []).1 = 0 := by
  have h1 := (C5_removed_unit ctx0
    ⟨[unitA, unitNoDef], false, false, false, false⟩ [] unitA
    (by decide) (by decide) (by decide)).1 metaA rfl
  have h2 := (C5_removed_unit ctx0
    ⟨[unitA, unitNoDef], false, false, false, false⟩ [] unitNoDef
    (by decide) (by decide) (by decide)).2 rfl
  exact ⟨h1.1, h1.2, h2⟩

/-- C6 (amended): the duplicate-title warning is driven by the per-pass seen
set: within one pass in which every added unit is well-formed, the warning
for a title fires once per added unit beyond the first declaring that title
(so exactly once when exactly two added units declare it), while units
duplicating a title across different passes are not re-processed and can
trigger no warning at all. -/
theorem C6_dup_warning_per_pass (ctx : Ctx) (g : GlobalState)
    (curr : List ExportUnit) (T : String)
    (h : ∀ u ∈ addedUnits g.previousExports curr, unitOk u = true) :
    countEv (isDupWarnFor T) (runLoadStories ctx g curr).1 =
      countTitled T (addedUnits g.previousExports curr) - 1 := by
  have hrem : countEv (isDupWarnFor T)
      (removalEvents g.previousExports curr) = 0 := by
    rw [countEv_eq_zero]
    intro e he
    obtain ⟨u, hu, hmap⟩ := List.mem_filterMap.mp he
    cases hd : u.defaultExport with
    | none => rw [hd] at hmap; exact Option.noConfusion hmap
    | some m =>
        rw [hd] at hmap
        simp only [Option.map_some'] at hmap
        injection hmap with hmap
        subst hmap
        rfl
  have hmain := runAdded_dup_count ctx T (addedUnits g.previousExports curr)
    ⟨removalEvents g.previousExports curr, [],
      g.dupAdvisoryFired, g.legacyAdvisoryFired⟩ h
  dsimp only at hmain
  rw [runLoadStories_events_eq, hmain, hrem, Nat.zero_add,
    if_neg (List.not_mem_nil T)]

/-- Two distinct loaded units both declaring the title `"Button"`,
reconciled across two passes (the first unit loads alone, the second joins
in the next pass): both units are registered as kinds, yet the
duplicate-title warning fires zero times, not exactly once as the claim
states. -/
theorem C6_counterexample :
    unitTitle unitB1 = some "Button" ∧
    unitTitle unitB2 = some "Button" ∧
    unitB1 ≠ unitB2 ∧
    Event.storiesOf 10 "Button" ∈ (runLoadStories ctx0 gEmpty [unitB1]).1 ∧
    Event.storiesOf 11 "Button" ∈
      (runLoadStories ctx0 (runLoadStories ctx0 gEmpty [unitB1]).2.1
        [unitB1, unitB2]).1 ∧
    countEv (isDupWarnFor "Button")
      ((runLoadStories ctx0 gEmpty [unitB1]).1 ++
        (runLoadStories ctx0 (runLoadStories ctx0 gEmpty [unitB1]).2.1
          [unitB1, unitB2]).1) = 0 := by
  refine ⟨rfl, rfl, by decide, by decide, by decide, by decide⟩

theorem C6_witness :
    countEv (isDupWarnFor "Button")
      (runLoadStories ctx0 gEmpty [unitB1, unitB3]).1 = 1 := by
  have h := C6_dup_warning_per_pass ctx0 gEmpty [unitB1, unitB3] "Button"
    (by decide)
  rw [h]
  rfl

/-- C7 (amended): the empty-stories warning fires exactly when the unit's
named exports, after ordering-list filtering but before the entry-recognition
predicate, are empty; in that case the group is still registered, its
parameters and decorators are applied and no entry is added.  A unit whose
iterated exports are all rejected by the recognition predicate registers no
entry either, but emits no warning. -/
theorem C7_empty_stories (ctx : Ctx) (lk : List String) (df lf : Bool)
    (u : ExportUnit) (m : Meta) (hd : u.defaultExport = some m)
    (ht : jsTruthy m.title = true) :
    (storyExportKeys u = [] →
      Event.warnNoStories u.uid (m.title.getD "") ∈
        (processUnitCore ctx lk df lf u).events ∧
      Event.addParameters u.uid (m.title.getD "")
        (kindParamsObj ctx.framework u m) ∈
        (processUnitCore ctx lk df lf u).events ∧
      (∀ d ∈ m.decorators, Event.addDecorator u.uid (m.title.getD "") d ∈
        (processUnitCore ctx lk df lf u).events) ∧
      countEv isAddStoryEv (processUnitCore ctx lk df lf u).events = 0) ∧
    (storyExportKeys u ≠ [] →
      countEv (isNoStoriesWarnFor u.uid)
        (processUnitCore ctx lk df lf u).events = 0) := by
  rw [processUnitCore_ok_events ctx lk df lf hd ht]
  constructor
  · intro hempty
    have hise : (storyExportKeys u).isEmpty = true := by
      rw [hempty]
      rfl
    have htail : (tailEventsOf ctx u m (m.title.getD "") lf).1 =
        [Event.warnNoStories u.uid (m.title.getD "")] := by
      unfold tailEventsOf
      rw [if_pos hise]
    refine ⟨?_, ?_, ?_, ?_⟩
    · rw [htail]
      simp
    · simp [kindEventsOf]
    · intro d hdmem
      have hk : Event.addDecorator u.uid (m.title.getD "") d ∈
          kindEventsOf ctx u m (m.title.getD "") := by
        unfold kindEventsOf
        exact List.mem_cons_of_mem _ (List.mem_cons_of_mem _
          (List.mem_map_of_mem _ hdmem))
      exact List.mem_append_left _ (List.mem_append_right _ hk)
    · rw [countEv_append, countEv_append, htail]
      have h1 : countEv isAddStoryEv (dupEventsOf lk df (m.title.getD "")) = 0 := by
        rw [countEv_eq_zero]
        intro e he
        rcases dupEventsOf_mem _ _ _ e he with rfl | rfl <;> rfl
      have h2 : countEv isAddStoryEv (kindEventsOf ctx u m (m.title.getD "")) = 0 := by
        rw [countEv_eq_zero]
        intro e he
        rcases kindEventsOf_mem _ _ _ _ e he with rfl | rfl | ⟨d, _, rfl⟩ <;> rfl
      rw [h1, h2]
      rfl
  · intro hne
    have hise : (storyExportKeys u).isEmpty = false := by
      cases hh : storyExportKeys u with
      | nil => exact absurd hh hne
      | cons a l => rfl
    have htail : (tailEventsOf ctx u m (m.title.getD "") lf).1 =
        (processStories ctx.ext m u.uid (m.title.getD "") lf
          (selectExports u)).1 := by
      unfold tailEventsOf
      rw [hise]
      rfl
    rw [countEv_append, countEv_append, htail]
    have h1 : countEv (isNoStoriesWarnFor u.uid)
        (dupEventsOf lk df (m.title.getD "")) = 0 := by
      rw [countEv_eq_zero]
      intro e he
      rcases dupEventsOf_mem _ _ _ e he with rfl | rfl <;> rfl
    have h2 : countEv (isNoStoriesWarnFor u.uid)
        (kindEventsOf ctx u m (m.title.getD "")) = 0 := by
      rw [countEv_eq_zero]
      intro e he
      rcases kindEventsOf_mem _ _ _ _ e he with rfl | rfl | ⟨d, _, rfl⟩ <;> rfl
    have h3 : countEv (isNoStoriesWarnFor u.uid)
        (processStories ctx.ext m u.uid (m.title.getD "") lf
          (selectExports u)).1 = 0 := by
      rw [countEv_eq_zero]
      intro e he
      rcases processStories_events _ _ _ _ _ _ e he with rfl |
        ⟨n2, k2, f2, p2, rfl, _⟩ <;> rfl
    rw [h1, h2, h3]

/-- A unit with one named export that the recognition predicate rejects ends
the pass with zero recognized entries, yet the engine emits no empty-group
warning for it (the emptiness check runs before the recognition filter), so
the claim's promised warning does not fire. -/
theorem C7_counterexample :
    (selectExports unitC7).filter (fun p => ext0.isExportStory p.1 metaA) =
      [] ∧
    countEv isAddStoryEv (processUnitCore ctx0 [] false false unitC7).events =
      0 ∧
    countEv (isNoStoriesWarnFor 7)
      (processUnitCore ctx0 [] false false unitC7).events = 0 ∧
    Event.storiesOf 7 "A" ∈ (processUnitCore ctx0 [] false false unitC7).events := by
  refine ⟨rfl, rfl, rfl, by decide⟩

theorem C7_witness :
    Event.warnNoStories 8 "A" ∈
      (processUnitCore ctx0 [] false false unitC7e).events ∧
    countEv isAddStoryEv (processUnitCore ctx0 [] false false unitC7e).events =
      0 ∧
    countEv (isNoStoriesWarnFor 7)
      (processUnitCore ctx0 [] false false unitC7).events = 0 := by
  have h1 := (C7_empty_stories ctx0 [] false false unitC7e metaA rfl rfl).1 rfl
  have h2 := (C7_empty_stories ctx0 [] false false unitC7 metaA rfl rfl).2
    (by decide)
  exact ⟨h1.1, h1.2.2.2, h2⟩

/-- C9: invoking the entrypoint a second time without an intervening
reload-teardown logs exactly one repeated-load warning, and the second
invocation still issues exactly the catalog-store calls of its full
reconciliation pass. -/
theorem C9_repeated_load (ctx : Ctx) (g : GlobalState) (sw : Bool)
    (curr1 curr2 : List ExportUnit) (h : g.loaded = false) :
    countEv (fun e => e = Event.warnRepeatedLoad)
      (loadCsf ctx g (ModuleArg.modArg none) sw curr1).1 = 0 ∧
    countEv (fun e => e = Event.warnRepeatedLoad)
      (loadCsf ctx (loadCsf ctx g (ModuleArg.modArg none) sw curr1).2.1
        (ModuleArg.modArg none) sw curr2).1 = 1 ∧
    (loadCsf ctx (loadCsf ctx g (ModuleArg.modArg none) sw curr1).2.1
        (ModuleArg.modArg none) sw curr2).1.filter isStoreCall =
      (runLoadStories ctx
        (loadCsf ctx g (ModuleArg.modArg none) sw curr1).2.1
        curr2).1.filter isStoreCall := by
  have hconf0 : countEv (fun e => e = Event.warnRepeatedLoad)
      (if sw && !g.configureAdvisoryFired then [Event.advisoryConfigure]
       else []) = 0 := by
    by_cases hb : (sw && !g.configureAdvisoryFired) = true <;>
      simp [hb, countEv]
  have hfirst : countEv (fun e => e = Event.warnRepeatedLoad)
      (loadCsf ctx g (ModuleArg.modArg none) sw curr1).1 = 0 := by
    rw [loadCsf_modNone_events, countEv_append, countEv_append, hconf0, h,
      runLoadStories_no_repeated]
    rfl
  have hr1loaded : (loadCsf ctx g (ModuleArg.modArg none) sw curr1).2.1.loaded =
      true := by
    rw [loadCsf_modNone_state, runLoadStories_keeps_loaded]
  have hconf1 : countEv (fun e => e = Event.warnRepeatedLoad)
      (if sw && !(loadCsf ctx g (ModuleArg.modArg none) sw
          curr1).2.1.configureAdvisoryFired then [Event.advisoryConfigure]
       else []) = 0 := by
    by_cases hb : (sw && !(loadCsf ctx g (ModuleArg.modArg none) sw
        curr1).2.1.configureAdvisoryFired) = true <;>
      simp [hb, countEv]
  refine ⟨hfirst, ?_, ?_⟩
  · rw [loadCsf_modNone_events, countEv_append, countEv_append, hconf1,
      hr1loaded, runLoadStories_no_repeated]
    rfl
  · rw [loadCsf_modNone_events, hr1loaded, List.filter_append,
      List.filter_append]
    have hc : ∀ b : Bool, (if b then [Event.advisoryConfigure]
        else ([] : List Event)).filter isStoreCall = [] := by
      intro b
      cases b <;> rfl
    rw [hc]
    rfl

theorem C9_witness :
    countEv (fun e => e = Event.warnRepeatedLoad)
      (loadCsf ctx0 gEmpty (ModuleArg.modArg none) false [unitA]).1 = 0 ∧
    countEv (fun e => e = Event.warnRepeatedLoad)
      (loadCsf ctx0 (loadCsf ctx0 gEmpty (ModuleArg.modArg none) false
          [unitA]).2.1 (ModuleArg.modArg none) false []).1 = 1 ∧
    (loadCsf ctx0 (loadCsf ctx0 gEmpty (ModuleArg.modArg none) false
        [unitA]).2.1 (ModuleArg.modArg none) false []).1.filter isStoreCall =
      (runLoadStories ctx0
        (loadCsf ctx0 gEmpty (ModuleArg.modArg none) false [unitA]).2.1
        []).1.filter isStoreCall :=
  C9_repeated_load ctx0 gEmpty false [unitA] [] rfl

end LoadCsf
